import Mathlib

/-!
# Motion-blur accumulation engine: shallow embedding

A shallow embedding of the temporal motion-blur subsystem of the repository:
the configuration resolver and the sub-frame sampling engine
(`packages/core/src/utils/MotionBlur.ts`) and the stage accumulation buffer
(`packages/core/src/app/Stage.ts`).  JavaScript numbers are modelled as
rationals (reals where `Math.exp` is involved); `Math.round` is rounding half
up, which coincides with Mathlib's `round`; the JavaScript truthiness test
`!x` on an optional number is explicit (`undefined` and `0` are both falsy).
-/

namespace Revideo

/-- Shutter curve types (source union type 'box' | 'triangle' | 'gaussian'). -/
inductive ShutterCurve where
  | box
  | triangle
  | gaussian
deriving DecidableEq

/-- Shutter position (source union type 'center' | 'start' | 'end';
`end` is a Lean keyword, hence `end'`). -/
inductive ShutterPosition where
  | center
  | start
  | end'
deriving DecidableEq

/-- Quality presets (source union type 'low' | 'medium' | 'high' | 'ultra'). -/
inductive MotionBlurQuality where
  | low
  | medium
  | high
  | ultra
deriving DecidableEq

/-- Sample counts for each quality preset (source constant `QUALITY_SAMPLES`). -/
def QUALITY_SAMPLES : MotionBlurQuality → ℚ
  | .low => 4
  | .medium => 8
  | .high => 16
  | .ultra => 32

/-- Resolved motion blur configuration (source interface `MotionBlurConfig`). -/
structure MotionBlurConfig where
  enabled : Bool
  samples : ℚ
  shutterAngle : ℚ
  shutterCurve : ShutterCurve
  shutterPosition : ShutterPosition
  adaptiveSampling : Bool
  adaptiveMinSamples : ℚ
  shutterPhase : ℚ
deriving DecidableEq

/-- Source constant `DEFAULT_MOTION_BLUR_CONFIG`. -/
def DEFAULT_MOTION_BLUR_CONFIG : MotionBlurConfig where
  enabled := false
  samples := 8
  shutterAngle := 180
  shutterCurve := ShutterCurve.box
  shutterPosition := ShutterPosition.center
  adaptiveSampling := false
  adaptiveMinSamples := 2
  shutterPhase := -90

/-- Source type `MotionBlurOptions`: a `Partial<MotionBlurConfig>` plus an
optional `quality` preset; every field optional (`none` models an absent /
`undefined` field). -/
structure MotionBlurOptions where
  enabled : Option Bool
  samples : Option ℚ
  shutterAngle : Option ℚ
  shutterCurve : Option ShutterCurve
  shutterPosition : Option ShutterPosition
  adaptiveSampling : Option Bool
  adaptiveMinSamples : Option ℚ
  shutterPhase : Option ℚ
  quality : Option MotionBlurQuality
deriving DecidableEq

/-- An options record with every field absent. -/
def noOptions : MotionBlurOptions :=
  ⟨none, none, none, none, none, none, none, none, none⟩

/-- JavaScript truthiness of an optional number: `undefined` and `0` are falsy,
every other number is truthy (`NaN` does not arise over ℚ). -/
def truthy : Option ℚ → Bool
  | none => false
  | some q => decide (q ≠ 0)

/-- Source `clampSamples`: `Math.max(1, Math.min(64, Math.round(samples)))`.
`Math.round` rounds half toward positive infinity, as does Mathlib's `round`. -/
def clampSamples (samples : ℚ) : ℚ :=
  ((max 1 (min 64 (round samples)) : ℤ) : ℚ)

/-- Source `clampShutterAngle`: `Math.max(0, Math.min(720, angle))`. -/
def clampShutterAngle (angle : ℚ) : ℚ :=
  max 0 (min 720 angle)

/-- Source `clampShutterPhase`: `Math.max(-360, Math.min(360, phase))`. -/
def clampShutterPhase (phase : ℚ) : ℚ :=
  max (-360) (min 360 phase)

/-- Source `calculatePhaseFromPosition`. -/
def calculatePhaseFromPosition (position : ShutterPosition) (shutterAngle : ℚ) : ℚ :=
  match position with
  | .center => -shutterAngle / 2
  | .start => 0
  | .end' => -shutterAngle

/-- Source `resolveMotionBlurConfig(options?)`.  The two `if` guards use
JavaScript truthiness: `options.quality && !options.samples` and
`options.shutterPosition && !options.shutterPhase`, so a supplied `0` behaves
like an absent value there. -/
def resolveMotionBlurConfig : Option MotionBlurOptions → MotionBlurConfig
  | none => DEFAULT_MOTION_BLUR_CONFIG
  | some options =>
    let samples0 := options.samples.getD DEFAULT_MOTION_BLUR_CONFIG.samples
    let samples :=
      match options.quality with
      | some quality => if truthy options.samples then samples0 else QUALITY_SAMPLES quality
      | none => samples0
    let shutterPhase0 := options.shutterPhase.getD DEFAULT_MOTION_BLUR_CONFIG.shutterPhase
    let shutterPhase :=
      match options.shutterPosition with
      | some position =>
        if truthy options.shutterPhase then shutterPhase0
        else
          calculatePhaseFromPosition position
            (options.shutterAngle.getD DEFAULT_MOTION_BLUR_CONFIG.shutterAngle)
      | none => shutterPhase0
    { enabled := options.enabled.getD DEFAULT_MOTION_BLUR_CONFIG.enabled
      samples := clampSamples samples
      shutterAngle :=
        clampShutterAngle (options.shutterAngle.getD DEFAULT_MOTION_BLUR_CONFIG.shutterAngle)
      shutterCurve := options.shutterCurve.getD DEFAULT_MOTION_BLUR_CONFIG.shutterCurve
      shutterPosition := options.shutterPosition.getD DEFAULT_MOTION_BLUR_CONFIG.shutterPosition
      adaptiveSampling :=
        options.adaptiveSampling.getD DEFAULT_MOTION_BLUR_CONFIG.adaptiveSampling
      adaptiveMinSamples :=
        max 1 (options.adaptiveMinSamples.getD DEFAULT_MOTION_BLUR_CONFIG.adaptiveMinSamples)
      shutterPhase := clampShutterPhase shutterPhase }

/-- A fully resolved config handed back to the resolver as user options:
every field supplied, no quality preset (the resolved type has none). -/
def MotionBlurConfig.toOptions (c : MotionBlurConfig) : MotionBlurOptions :=
  ⟨some c.enabled, some c.samples, some c.shutterAngle, some c.shutterCurve,
    some c.shutterPosition, some c.adaptiveSampling, some c.adaptiveMinSamples,
    some c.shutterPhase, none⟩

/-- A configuration is resolved when it is the output of the resolver. -/
def Resolved (c : MotionBlurConfig) : Prop :=
  ∃ options, resolveMotionBlurConfig options = c

/-- Number of iterations of the JavaScript loop `for (let i = 0; i < bound; i++)`
for a (possibly non-integral, possibly negative) numeric bound. -/
def loopCount (bound : ℚ) : ℕ :=
  Int.toNat ⌈bound⌉

/-- The local `exposureTime` of `calculateSubframeOffsets`:
`frameDuration * (shutterAngle / 360)`. -/
def exposureTime (config : MotionBlurConfig) (frameDuration : ℚ) : ℚ :=
  frameDuration * (config.shutterAngle / 360)

/-- The local `phaseOffset` of `calculateSubframeOffsets`:
`(shutterPhase / 360) * frameDuration`. -/
def phaseOffset (config : MotionBlurConfig) (frameDuration : ℚ) : ℚ :=
  (config.shutterPhase / 360) * frameDuration

/-- Source `calculateSubframeOffsets(config, frameDuration)`. -/
def calculateSubframeOffsets (config : MotionBlurConfig) (frameDuration : ℚ) : List ℚ :=
  (List.range (loopCount config.samples)).map fun (i : ℕ) =>
    let samplePosition : ℚ :=
      if config.samples = 1 then 1/2 else (i : ℚ) / (config.samples - 1)
    phaseOffset config frameDuration + samplePosition * exposureTime config frameDuration -
      exposureTime config frameDuration / 2

/-- Source `calculateBoxWeights`: `Array(samples).fill(1)`.  Real-valued because the
other curves need `Math.exp`. -/
noncomputable def calculateBoxWeights (samples : ℚ) : List ℝ :=
  List.replicate (loopCount samples) 1

/-- Source `calculateTriangleWeights`. -/
noncomputable def calculateTriangleWeights (samples : ℚ) : List ℝ :=
  (List.range (loopCount samples)).map fun (i : ℕ) =>
    1 - |(i : ℝ) - ((samples : ℝ) - 1) / 2| / ((samples : ℝ) / 2)

/-- Source `calculateGaussianWeights` with `sigma = samples / 4`. -/
noncomputable def calculateGaussianWeights (samples : ℚ) : List ℝ :=
  (List.range (loopCount samples)).map fun (i : ℕ) =>
    Real.exp (-(((i : ℝ) - ((samples : ℝ) - 1) / 2) * ((i : ℝ) - ((samples : ℝ) - 1) / 2)) /
      (2 * (((samples : ℝ) / 4) * ((samples : ℝ) / 4))))

/-- Source `calculateSubframeWeights`: pick the raw curve, then normalize by the
running sum `reduce((a, b) => a + b, 0)`. -/
noncomputable def calculateSubframeWeights (config : MotionBlurConfig) : List ℝ :=
  let weights :=
    match config.shutterCurve with
    | .triangle => calculateTriangleWeights config.samples
    | .gaussian => calculateGaussianWeights config.samples
    | .box => calculateBoxWeights config.samples
  let sum := weights.foldl (· + ·) 0
  weights.map fun w => w / sum

/-- Source `calculateAdaptiveSamples(config, velocity, threshold = 50)`; the default
threshold is passed explicitly here. -/
def calculateAdaptiveSamples (config : MotionBlurConfig) (velocity threshold : ℚ) : ℚ :=
  if !config.adaptiveSampling then config.samples
  else
    let scale := min 1 (velocity / threshold)
    let adaptedSamples : ℚ :=
      ((round (config.adaptiveMinSamples +
        (config.samples - config.adaptiveMinSamples) * scale) : ℤ) : ℚ)
    max config.adaptiveMinSamples adaptedSamples

/-- Canvas color space (source `CanvasColorSpace`). -/
inductive CanvasColorSpace where
  | srgb
  | displayP3
deriving DecidableEq

/-- Two-component vector (source `Vector2`); `exactlyEquals` is plain equality of
the components, which is structure equality here. -/
structure Vector2 where
  x : ℚ
  y : ℚ
deriving DecidableEq

/-- Source `Vector2.scale`. -/
def Vector2.scale (v : Vector2) (s : ℚ) : Vector2 :=
  ⟨v.x * s, v.y * s⟩

/-- The mutable fields of the `Stage` class that the motion-blur lifecycle touches.
`finalPixels` models the visible render target's RGBA channel data (the
`finalBuffer` context); the accumulation buffer holds rationals in place of the
source's `Float32Array`. -/
structure Stage where
  background : Option String
  resolutionScale : ℚ
  colorSpace : CanvasColorSpace
  size : Vector2
  motionBlurConfig : MotionBlurConfig
  accumulationBuffer : Option (List ℚ)
  accumulationSamples : ℕ
  finalPixels : List ℕ
deriving DecidableEq

/-- Source getter `canvasSize`: `size.scale(resolutionScale)`. -/
def canvasSize (st : Stage) : Vector2 :=
  st.size.scale st.resolutionScale

/-- `width * height * 4` RGBA channel slots of the canvas; canvas dimensions are
integral (the DOM floors a fractional size assigned to `canvas.width`). -/
def canvasPixelCount (st : Stage) : ℕ :=
  Int.toNat ⌊(canvasSize st).x⌋ * Int.toNat ⌊(canvasSize st).y⌋ * 4

/-- `context.getImageData(0, 0, width, height).data`: the visible target's channel
values, cropped or transparent-black-padded to the canvas's channel count. -/
def getImageDataPixels (st : Stage) : List ℕ :=
  (List.range (canvasPixelCount st)).map fun i => st.finalPixels.getD i 0

/-- Source `Stage.beginMotionBlurAccumulation`. -/
def beginMotionBlurAccumulation (st : Stage) : Stage :=
  let bufferSize := canvasPixelCount st
  let buf :=
    match st.accumulationBuffer with
    | none => List.replicate bufferSize (0 : ℚ)
    | some b =>
      if b.length ≠ bufferSize then List.replicate bufferSize (0 : ℚ)
      else List.replicate b.length (0 : ℚ)
  { st with accumulationBuffer := some buf, accumulationSamples := 0 }

/-- Source `Stage.accumulateMotionBlurSample(weight)`: no-op without a buffer; else
adds `pixel * weight` into each channel slot (a `Float32Array` write at an index
beyond the buffer's length is silently dropped, hence `mapIdx` over the buffer)
and increments the sample counter. -/
def accumulateMotionBlurSample (weight : ℚ) (st : Stage) : Stage :=
  match st.accumulationBuffer with
  | none => st
  | some buf =>
    let pixels := getImageDataPixels st
    { st with
      accumulationBuffer := some (buf.mapIdx fun i b => b + (pixels.getD i 0 : ℚ) * weight)
      accumulationSamples := st.accumulationSamples + 1 }

/-- `Math.round(Math.min(255, Math.max(0, v)))` of `Stage.finalizeMotionBlur`,
as a `Uint8ClampedArray` channel value. -/
def clampRoundChannel (v : ℚ) : ℕ :=
  Int.toNat (round (min 255 (max 0 v)))

/-- Source `Stage.finalizeMotionBlur`: no-op without a buffer or with a zero sample
counter; otherwise builds a fresh image (`createImageData`) of the canvas's size
whose channels are the clamped, rounded accumulated values (out-of-range reads of
the buffer denote `undefined`, which the clamped write turns into 0, matching
`getD i 0` here) and replaces the visible target with it (`putImageData`). -/
def finalizeMotionBlur (st : Stage) : Stage :=
  match st.accumulationBuffer with
  | none => st
  | some buf =>
    if st.accumulationSamples = 0 then st
    else
      { st with
        finalPixels := (List.range (canvasPixelCount st)).map fun i =>
          clampRoundChannel (buf.getD i 0) }

/-- Source `StageSettings`, as the partial record handed to `Stage.configure`
(`none` = field absent, defaulted to the current value). -/
structure StageSettings where
  size : Option Vector2
  resolutionScale : Option ℚ
  colorSpace : Option CanvasColorSpace
  background : Option (Option String)
  motionBlur : Option MotionBlurOptions
deriving DecidableEq

/-- Source `Stage.configure`: defaults each destructured setting to the current
value; recreates the contexts on a color-space change; on a size or
resolution-scale change resizes the canvases (which clears them) and nulls the
accumulation buffer; always reassigns the background; and re-resolves the
motion-blur config exactly when the `motionBlur` key is present. -/
def configure (settings : StageSettings) (st : Stage) : Stage :=
  let colorSpace := settings.colorSpace.getD st.colorSpace
  let size := settings.size.getD st.size
  let resolutionScale := settings.resolutionScale.getD st.resolutionScale
  let background := settings.background.getD st.background
  let st1 : Stage := { st with colorSpace := colorSpace }
  let st2 : Stage :=
    if size ≠ st.size ∨ resolutionScale ≠ st.resolutionScale then
      let resized : Stage :=
        { st1 with
          resolutionScale := resolutionScale
          size := size
          accumulationBuffer := none }
      { resized with finalPixels := List.replicate (canvasPixelCount resized) 0 }
    else st1
  let st3 : Stage := { st2 with background := background }
  match settings.motionBlur with
  | some motionBlur => { st3 with motionBlurConfig := resolveMotionBlurConfig (some motionBlur) }
  | none => st3

/-- One call the orchestrator makes on the stage or on the caller's callback,
recorded in order. -/
inductive MBEvent where
  | beginAccumulation : MBEvent
  | renderSubframe : ℚ → MBEvent
  | accumulateSample : ℚ → MBEvent
  | finalizeAccumulation : MBEvent
deriving DecidableEq

/-- Source `Stage.renderWithMotionBlur(renderCallback, subframeOffsets, weights)`.
The caller's async callback is modelled as a stage transformer (each call is
awaited before the next step, so the loop is sequential state passing); alongside
the final stage the embedding records the sequence of calls made. -/
def renderWithMotionBlur (renderCallback : ℚ → Stage → Stage)
    (subframeOffsets weights : List ℚ) (st : Stage) : Stage × List MBEvent :=
  if subframeOffsets.length = 0 ∨ subframeOffsets.length ≠ weights.length then
    (st, [])
  else
    let loop := (subframeOffsets.zip weights).foldl
      (fun (acc : Stage × List MBEvent) ow =>
        (accumulateMotionBlurSample ow.2 (renderCallback ow.1 acc.1),
          acc.2 ++ [MBEvent.renderSubframe ow.1, MBEvent.accumulateSample ow.2]))
      (beginMotionBlurAccumulation st, [MBEvent.beginAccumulation])
    (finalizeMotionBlur loop.1, loop.2 ++ [MBEvent.finalizeAccumulation])

/-- Options `{quality: 'ultra', samples: 0}`: quality present, samples supplied as `0`. -/
def optsQualityZeroSamples : MotionBlurOptions :=
  ⟨none, some 0, none, none, none, none, none, none, some MotionBlurQuality.ultra⟩

/-- Options `{shutterPhase: 400, shutterPosition: 'center'}`. -/
def optsLargePhase : MotionBlurOptions :=
  ⟨none, none, none, none, some ShutterPosition.center, none, none, some 400, none⟩

/-- Options `{samples: 4, adaptiveSampling: true, adaptiveMinSamples: 32}`: a minimum
above the sample count. -/
def optsAdaptiveInverted : MotionBlurOptions :=
  ⟨none, some 4, none, none, none, some true, some 32, none, none⟩

/-- Options `{adaptiveSampling: true}` (samples and minimum from the defaults). -/
def optsAdaptive : MotionBlurOptions :=
  ⟨none, none, none, none, none, some true, none, none, none⟩

/-- A 1×1 stage (4 channel slots) with no accumulation buffer. -/
def stageIdle : Stage :=
  ⟨none, 1, CanvasColorSpace.srgb, ⟨1, 1⟩, DEFAULT_MOTION_BLUR_CONFIG, none, 0, [0, 0, 0, 0]⟩

/-- A 1×1 stage mid-accumulation: buffer holds an overflowing, a negative, a
fractional and an in-range channel sum, one sample counted. -/
def stageAccumulating : Stage :=
  ⟨none, 1, CanvasColorSpace.srgb, ⟨1, 1⟩, DEFAULT_MOTION_BLUR_CONFIG,
    some [300, -5, 1/2, 7], 1, [0, 0, 0, 0]⟩

/-- Settings that change the color space, the background and the motion-blur
configuration but leave size and resolution scale absent. -/
def settingsNoResize : StageSettings :=
  ⟨none, none, some CanvasColorSpace.displayP3, some none, some optsAdaptive⟩

/-- Settings that change only the resolution scale. -/
def settingsRescale : StageSettings :=
  ⟨none, some 2, none, none, none⟩

/-- Options `{shutterPhase: 0, shutterPosition: 'center'}`. -/
def optsZeroPhaseCenter : MotionBlurOptions :=
  ⟨none, none, none, none, some ShutterPosition.center, none, none, some 0, none⟩

/-- Options `{shutterPhase: 0}`. -/
def optsZeroPhase : MotionBlurOptions :=
  ⟨none, none, none, none, none, none, none, some 0, none⟩

/-- Options `{adaptiveMinSamples: 2.5}`. -/
def optsHalfMinSamples : MotionBlurOptions :=
  ⟨none, none, none, none, none, none, some (5/2), none, none⟩

lemma clampSamples_fix (s : ℚ) : clampSamples (clampSamples s) = clampSamples s := by
  unfold clampSamples
  rw [round_intCast]
  norm_cast
  omega

lemma clamp_interval_fix {lo hi : ℚ} (x : ℚ) (h : lo ≤ hi) :
    max lo (min hi (max lo (min hi x))) = max lo (min hi x) := by
  have h1 : max lo (min hi x) ≤ hi := max_le h (min_le_left _ _)
  rw [min_eq_right h1, ← max_assoc, max_self]

lemma clampShutterAngle_fix (a : ℚ) :
    clampShutterAngle (clampShutterAngle a) = clampShutterAngle a :=
  clamp_interval_fix a (by norm_num)

lemma clampShutterPhase_fix (p : ℚ) :
    clampShutterPhase (clampShutterPhase p) = clampShutterPhase p :=
  clamp_interval_fix p (by norm_num)

lemma max_one_fix (x : ℚ) : max 1 (max 1 x) = max 1 x := by
  rw [← max_assoc, max_self]

lemma resolve_samples_fix (o : Option MotionBlurOptions) :
    clampSamples (resolveMotionBlurConfig o).samples = (resolveMotionBlurConfig o).samples := by
  cases o with
  | none =>
    show clampSamples 8 = 8
    norm_num [clampSamples, round_eq]
  | some oo => exact clampSamples_fix _

lemma resolve_angle_fix (o : Option MotionBlurOptions) :
    clampShutterAngle (resolveMotionBlurConfig o).shutterAngle =
      (resolveMotionBlurConfig o).shutterAngle := by
  cases o with
  | none =>
    show clampShutterAngle 180 = 180
    norm_num [clampShutterAngle]
  | some oo => exact clampShutterAngle_fix _

lemma resolve_phase_fix (o : Option MotionBlurOptions) :
    clampShutterPhase (resolveMotionBlurConfig o).shutterPhase =
      (resolveMotionBlurConfig o).shutterPhase := by
  cases o with
  | none =>
    show clampShutterPhase (-90) = -90
    norm_num [clampShutterPhase]
  | some oo => exact clampShutterPhase_fix _

lemma resolve_minSamples_fix (o : Option MotionBlurOptions) :
    max 1 (resolveMotionBlurConfig o).adaptiveMinSamples =
      (resolveMotionBlurConfig o).adaptiveMinSamples := by
  cases o with
  | none =>
    show max 1 2 = 2
    norm_num
  | some oo => exact max_one_fix _

/-- Feeding a config back in as options reproduces it, provided each numeric field
is already a fixed point of its clamp and the phase is nonzero (a zero phase would
be re-derived from the position, since the source guard treats `0` as absent). -/
lemma resolve_toOptions_eq (c : MotionBlurConfig)
    (hs : clampSamples c.samples = c.samples)
    (ha : clampShutterAngle c.shutterAngle = c.shutterAngle)
    (hp : clampShutterPhase c.shutterPhase = c.shutterPhase)
    (hm : max 1 c.adaptiveMinSamples = c.adaptiveMinSamples)
    (hz : c.shutterPhase ≠ 0) :
    resolveMotionBlurConfig (some c.toOptions) = c := by
  simp [resolveMotionBlurConfig, MotionBlurConfig.toOptions, truthy, hz, hs, ha, hp, hm]

lemma one_le_clampSamples (s : ℚ) : 1 ≤ clampSamples s := by
  unfold clampSamples
  exact_mod_cast le_max_left 1 (min 64 (round s))

lemma clampSamples_le (s : ℚ) : clampSamples s ≤ 64 := by
  unfold clampSamples
  have h : max 1 (min 64 (round s)) ≤ (64 : ℤ) := by omega
  exact_mod_cast h

lemma resolve_samples_bounds (o : Option MotionBlurOptions) :
    1 ≤ (resolveMotionBlurConfig o).samples ∧ (resolveMotionBlurConfig o).samples ≤ 64 ∧
      ∃ k : ℤ, (resolveMotionBlurConfig o).samples = (k : ℚ) := by
  cases o with
  | none =>
    refine ⟨by norm_num [resolveMotionBlurConfig, DEFAULT_MOTION_BLUR_CONFIG],
      by norm_num [resolveMotionBlurConfig, DEFAULT_MOTION_BLUR_CONFIG], 8, ?_⟩
    norm_num [resolveMotionBlurConfig, DEFAULT_MOTION_BLUR_CONFIG]
  | some oo => exact ⟨one_le_clampSamples _, clampSamples_le _, _, rfl⟩

lemma resolve_angle_bounds (o : Option MotionBlurOptions) :
    0 ≤ (resolveMotionBlurConfig o).shutterAngle ∧
      (resolveMotionBlurConfig o).shutterAngle ≤ 720 := by
  cases o with
  | none =>
    constructor <;> norm_num [resolveMotionBlurConfig, DEFAULT_MOTION_BLUR_CONFIG]
  | some oo =>
    exact ⟨le_max_left _ _, max_le (by norm_num) (min_le_left _ _)⟩

lemma resolve_phase_bounds (o : Option MotionBlurOptions) :
    -360 ≤ (resolveMotionBlurConfig o).shutterPhase ∧
      (resolveMotionBlurConfig o).shutterPhase ≤ 360 := by
  cases o with
  | none =>
    constructor <;> norm_num [resolveMotionBlurConfig, DEFAULT_MOTION_BLUR_CONFIG]
  | some oo =>
    exact ⟨le_max_left _ _, max_le (by norm_num) (min_le_left _ _)⟩

lemma resolve_minSamples_bound (o : Option MotionBlurOptions) :
    1 ≤ (resolveMotionBlurConfig o).adaptiveMinSamples := by
  cases o with
  | none => norm_num [resolveMotionBlurConfig, DEFAULT_MOTION_BLUR_CONFIG]
  | some oo => exact le_max_left _ _

/-- A resolved config's sample count is a natural number between 1 and 64. -/
lemma Resolved.samples_nat {c : MotionBlurConfig} (h : Resolved c) :
    ∃ n : ℕ, c.samples = (n : ℚ) ∧ 1 ≤ n ∧ n ≤ 64 := by
  obtain ⟨o, rfl⟩ := h
  obtain ⟨h1, h64, k, hk⟩ := resolve_samples_bounds o
  rw [hk] at h1 h64
  have hk1 : (1 : ℤ) ≤ k := by exact_mod_cast h1
  have hk64 : k ≤ (64 : ℤ) := by exact_mod_cast h64
  refine ⟨k.toNat, ?_, ?_, ?_⟩
  · rw [hk]
    norm_cast
    omega
  · omega
  · omega

/-- Claim C1 (code bug): the resolver's own documentation promises that a supplied
`samples` beats `quality`, and the spec requires
`resolve({quality, samples: s}).samples = max(1, min(64, round(s)))`; but at the
failing input `{quality: 'ultra', samples: 0}` the guard `options.quality &&
!options.samples` treats the supplied `0` as absent, returns the preset `32`, and
not `clampSamples 0 = 1`. -/
theorem resolve_quality_wins_at_zero_samples :
    (resolveMotionBlurConfig (some optsQualityZeroSamples)).samples = 32 ∧
      clampSamples 0 = 1 := by
  constructor
  · simp [resolveMotionBlurConfig, optsQualityZeroSamples, truthy, QUALITY_SAMPLES,
      clampSamples, DEFAULT_MOTION_BLUR_CONFIG]
  · norm_num [clampSamples, round_eq]

/-- Claim C2, counterexample: resolving the already-resolved `{shutterPhase: 0}`
(whose resolved phase is 0 and position is the default center) re-derives the
phase as −90, so `resolve (resolve c) ≠ resolve c` there. -/
theorem resolve_not_idempotent_at_zero_phase :
    resolveMotionBlurConfig
        (some (resolveMotionBlurConfig (some optsZeroPhase)).toOptions) ≠
      resolveMotionBlurConfig (some optsZeroPhase) := by
  intro h
  have h1 := congrArg MotionBlurConfig.shutterPhase h
  have h2 :
      (resolveMotionBlurConfig
        (some (resolveMotionBlurConfig (some optsZeroPhase)).toOptions)).shutterPhase = -90 := by
    simp [resolveMotionBlurConfig, optsZeroPhase, MotionBlurConfig.toOptions, truthy,
      calculatePhaseFromPosition, clampShutterPhase, clampShutterAngle, clampSamples,
      DEFAULT_MOTION_BLUR_CONFIG]
    norm_num
  have h3 : (resolveMotionBlurConfig (some optsZeroPhase)).shutterPhase = 0 := by
    simp [resolveMotionBlurConfig, optsZeroPhase, truthy, clampShutterPhase,
      DEFAULT_MOTION_BLUR_CONFIG]
  rw [h2, h3] at h1
  norm_num at h1

/-- Claim C2 (amended): the resolver is idempotent on every input whose resolved
`shutterPhase` is nonzero; a resolved phase of exactly 0 is re-derived from the
(always-populated) `shutterPosition` on the second pass. -/
theorem resolve_idempotent_of_phase_ne_zero (o : Option MotionBlurOptions)
    (h : (resolveMotionBlurConfig o).shutterPhase ≠ 0) :
    resolveMotionBlurConfig (some (resolveMotionBlurConfig o).toOptions) =
      resolveMotionBlurConfig o :=
  resolve_toOptions_eq _ (resolve_samples_fix o) (resolve_angle_fix o)
    (resolve_phase_fix o) (resolve_minSamples_fix o) h

/-- Witness for C2's amended theorem at the default configuration (phase −90). -/
theorem resolve_idempotent_witness :
    (resolveMotionBlurConfig none).shutterPhase ≠ 0 ∧
      resolveMotionBlurConfig (some (resolveMotionBlurConfig none).toOptions) =
        resolveMotionBlurConfig none :=
  ⟨by norm_num [resolveMotionBlurConfig, DEFAULT_MOTION_BLUR_CONFIG],
    resolve_idempotent_of_phase_ne_zero none
      (by norm_num [resolveMotionBlurConfig, DEFAULT_MOTION_BLUR_CONFIG])⟩

/-- Claim C3, counterexample: with `{shutterPhase: 0, shutterPosition: 'center'}`
the supplied phase 0 is not used (the claim demands `clampShutterPhase 0 = 0`);
the derivation from the position wins and yields −90. -/
theorem resolve_zero_phase_overridden_by_position :
    (resolveMotionBlurConfig (some optsZeroPhaseCenter)).shutterPhase = -90 ∧
      (resolveMotionBlurConfig (some optsZeroPhaseCenter)).shutterPhase ≠
        clampShutterPhase 0 := by
  have h : (resolveMotionBlurConfig (some optsZeroPhaseCenter)).shutterPhase = -90 := by
    simp [resolveMotionBlurConfig, optsZeroPhaseCenter, truthy, calculatePhaseFromPosition,
      clampShutterPhase, DEFAULT_MOTION_BLUR_CONFIG]
    norm_num
  refine ⟨h, ?_⟩
  rw [h]
  norm_num [clampShutterPhase]

/-- Claim C3 (amended): a supplied nonzero `shutterPhase` is used directly
(clamped) even when `shutterPosition` is also supplied, and any supplied phase is
used when no position is supplied; the derivation from `shutterPosition` applies
when a position is supplied and the phase is absent or zero (the code treats a
supplied `0` like an absent phase); with neither, the default −90 is used. -/
theorem resolve_shutterPhase_cases (o : MotionBlurOptions) :
    (∀ p : ℚ, o.shutterPhase = some p → p ≠ 0 →
      (resolveMotionBlurConfig (some o)).shutterPhase = clampShutterPhase p) ∧
    (∀ p : ℚ, o.shutterPhase = some p → o.shutterPosition = none →
      (resolveMotionBlurConfig (some o)).shutterPhase = clampShutterPhase p) ∧
    (∀ position : ShutterPosition, o.shutterPosition = some position →
      o.shutterPhase = none ∨ o.shutterPhase = some 0 →
      (resolveMotionBlurConfig (some o)).shutterPhase =
        clampShutterPhase (calculatePhaseFromPosition position (o.shutterAngle.getD 180))) ∧
    (o.shutterPhase = none → o.shutterPosition = none →
      (resolveMotionBlurConfig (some o)).shutterPhase = -90) := by
  refine ⟨?_, ?_, ?_, ?_⟩
  · intro p hp hne
    rcases hpos : o.shutterPosition with _ | position <;>
      simp [resolveMotionBlurConfig, hp, hpos, truthy, hne]
  · intro p hp hpos
    simp [resolveMotionBlurConfig, hp, hpos]
  · intro position hpos hor
    rcases hor with h0 | h0 <;>
      simp [resolveMotionBlurConfig, hpos, h0, truthy, DEFAULT_MOTION_BLUR_CONFIG]
  · intro h1 h2
    simp [resolveMotionBlurConfig, h1, h2, clampShutterPhase, DEFAULT_MOTION_BLUR_CONFIG]
    norm_num

/-- Witness for C3's amended theorem: a supplied out-of-range phase 400 with a
supplied position resolves to the clamp of 400 (namely 360). -/
theorem resolve_shutterPhase_cases_witness :
    (resolveMotionBlurConfig (some optsLargePhase)).shutterPhase = clampShutterPhase 400 :=
  (resolve_shutterPhase_cases optsLargePhase).1 400 rfl (by norm_num)

/-- Claim C4, counterexample: `{adaptiveMinSamples: 2.5}` resolves to an
`adaptiveMinSamples` of 5/2, which is not an integer (its denominator is 2): the
resolver floors the value at 1 but never rounds it. -/
theorem resolve_minSamples_not_integer :
    (resolveMotionBlurConfig (some optsHalfMinSamples)).adaptiveMinSamples = 5/2 ∧
      ((resolveMotionBlurConfig (some optsHalfMinSamples)).adaptiveMinSamples).den = 2 := by
  have h : (resolveMotionBlurConfig (some optsHalfMinSamples)).adaptiveMinSamples = 5/2 := by
    simp [resolveMotionBlurConfig, optsHalfMinSamples, DEFAULT_MOTION_BLUR_CONFIG]
    norm_num
  exact ⟨h, by rw [h]; norm_num⟩

/-- Claim C4 (amended): every resolved config satisfies: `samples` is an integer in
[1, 64], `shutterAngle` lies in [0, 720], `shutterPhase` lies in [−360, 360] and
`adaptiveMinSamples` is at least 1 — but `adaptiveMinSamples` need not be an
integer (it is only `max 1 _` of the supplied value). -/
theorem resolve_range_invariants (o : Option MotionBlurOptions) :
    1 ≤ (resolveMotionBlurConfig o).samples ∧
    (resolveMotionBlurConfig o).samples ≤ 64 ∧
    (∃ k : ℤ, (resolveMotionBlurConfig o).samples = (k : ℚ)) ∧
    0 ≤ (resolveMotionBlurConfig o).shutterAngle ∧
    (resolveMotionBlurConfig o).shutterAngle ≤ 720 ∧
    -360 ≤ (resolveMotionBlurConfig o).shutterPhase ∧
    (resolveMotionBlurConfig o).shutterPhase ≤ 360 ∧
    1 ≤ (resolveMotionBlurConfig o).adaptiveMinSamples :=
  ⟨(resolve_samples_bounds o).1, (resolve_samples_bounds o).2.1,
    (resolve_samples_bounds o).2.2, (resolve_angle_bounds o).1, (resolve_angle_bounds o).2,
    (resolve_phase_bounds o).1, (resolve_phase_bounds o).2, resolve_minSamples_bound o⟩

lemma loopCount_natCast (n : ℕ) : loopCount (n : ℚ) = n := by
  unfold loopCount
  rw [Int.ceil_natCast]
  exact Int.toNat_natCast n

lemma calculateSubframeOffsets_get (c : MotionBlurConfig) (fd : ℚ) (i : ℕ)
    (hi : i < (calculateSubframeOffsets c fd).length) :
    (calculateSubframeOffsets c fd).get ⟨i, hi⟩ =
      phaseOffset c fd +
        (if c.samples = 1 then 1/2 else (i : ℚ) / (c.samples - 1)) * exposureTime c fd -
        exposureTime c fd / 2 := by
  unfold calculateSubframeOffsets
  rw [List.get_eq_getElem]
  simp only [List.getElem_map, List.getElem_range]

/-- Claim C5: for a resolved config, `calculateSubframeOffsets` returns exactly
`samples` offsets; a single sample yields exactly `[phaseOffset]`; for more
samples the i-th offset is `phaseOffset + (i/(samples−1))·exposureTime −
exposureTime/2`; the offsets are evenly spaced (consecutive difference
`exposureTime/(samples−1)`) and symmetric about `phaseOffset`; and a zero shutter
angle collapses every offset to `phaseOffset`. -/
theorem calculateSubframeOffsets_spec (c : MotionBlurConfig) (h : Resolved c)
    (frameDuration : ℚ) :
    ((calculateSubframeOffsets c frameDuration).length : ℚ) = c.samples ∧
    (c.samples = 1 →
      calculateSubframeOffsets c frameDuration = [phaseOffset c frameDuration]) ∧
    (1 < c.samples →
      ∀ i : ℕ, ∀ hi : i < (calculateSubframeOffsets c frameDuration).length,
        (calculateSubframeOffsets c frameDuration).get ⟨i, hi⟩ =
          phaseOffset c frameDuration +
            ((i : ℚ) / (c.samples - 1)) * exposureTime c frameDuration -
            exposureTime c frameDuration / 2) ∧
    (∀ i : ℕ, ∀ hi : i < (calculateSubframeOffsets c frameDuration).length,
      ∀ hj : (calculateSubframeOffsets c frameDuration).length - 1 - i <
          (calculateSubframeOffsets c frameDuration).length,
        (calculateSubframeOffsets c frameDuration).get ⟨i, hi⟩ +
          (calculateSubframeOffsets c frameDuration).get
            ⟨(calculateSubframeOffsets c frameDuration).length - 1 - i, hj⟩ =
          2 * phaseOffset c frameDuration) ∧
    (1 < c.samples →
      ∀ i : ℕ, ∀ hi1 : i + 1 < (calculateSubframeOffsets c frameDuration).length,
        ∀ hi0 : i < (calculateSubframeOffsets c frameDuration).length,
        (calculateSubframeOffsets c frameDuration).get ⟨i + 1, hi1⟩ -
          (calculateSubframeOffsets c frameDuration).get ⟨i, hi0⟩ =
          exposureTime c frameDuration / (c.samples - 1)) ∧
    (c.shutterAngle = 0 →
      ∀ x ∈ calculateSubframeOffsets c frameDuration, x = phaseOffset c frameDuration) := by
  obtain ⟨n, hn, hn1, -⟩ := h.samples_nat
  have hlen : (calculateSubframeOffsets c frameDuration).length = n := by
    unfold calculateSubframeOffsets
    rw [List.length_map, List.length_range, hn, loopCount_natCast]
  refine ⟨?_, ?_, ?_, ?_, ?_, ?_⟩
  · rw [hlen, hn]
  · intro h1
    have hone : n = 1 := by
      rw [h1] at hn
      exact_mod_cast hn.symm
    refine List.ext_get ?_ ?_
    · rw [hlen, hone]
      rfl
    · intro i ha hb
      rw [calculateSubframeOffsets_get, if_pos h1]
      have hi0 : i = 0 := by
        rw [hlen, hone] at ha
        omega
      subst hi0
      simp
      ring
  · intro hlt i hi
    have hne : c.samples ≠ 1 := ne_of_gt hlt
    rw [calculateSubframeOffsets_get, if_neg hne]
  · intro i hi hj
    rw [calculateSubframeOffsets_get, calculateSubframeOffsets_get]
    by_cases hc1 : c.samples = 1
    · simp only [if_pos hc1]
      ring
    · have hn2 : 2 ≤ n := by
        rcases Nat.lt_or_ge n 2 with h2 | h2
        · exfalso
          have hne : n = 1 := by omega
          rw [hne] at hn
          exact hc1 (by exact_mod_cast hn)
        · exact h2
      have hsub : ((n - 1 - i : ℕ) : ℚ) = (n : ℚ) - 1 - (i : ℚ) := by
        rw [hlen] at hi
        push_cast [Nat.sub_sub, Nat.cast_sub (by omega : 1 + i ≤ n)]
        ring
      have hden : (n : ℚ) - 1 ≠ 0 := by
        intro hzero
        apply hc1
        rw [hn]
        have hone : (n : ℚ) = 1 := by linarith [sub_eq_zero.mp hzero]
        rw [hone]
      simp only [if_neg hc1]
      rw [hlen, hsub, hn]
      field_simp
      ring
  · intro hlt i hi1 hi0
    have hne : c.samples ≠ 1 := ne_of_gt hlt
    have hden : c.samples - 1 ≠ 0 := sub_ne_zero.mpr hne
    rw [calculateSubframeOffsets_get, calculateSubframeOffsets_get]
    simp only [if_neg hne]
    push_cast
    field_simp
    ring
  · intro h0 x hx
    have he : exposureTime c frameDuration = 0 := by
      unfold exposureTime
      rw [h0]
      norm_num
    rw [List.mem_iff_get] at hx
    obtain ⟨⟨i, hi⟩, rfl⟩ := hx
    rw [calculateSubframeOffsets_get, he]
    split <;> ring

/-- Witness for C5 at the default configuration and a 24 fps frame duration. -/
theorem calculateSubframeOffsets_spec_witness :
    Resolved (resolveMotionBlurConfig none) ∧
      ((calculateSubframeOffsets (resolveMotionBlurConfig none) (1/24)).length : ℚ) =
        (resolveMotionBlurConfig none).samples :=
  ⟨⟨none, rfl⟩,
    (calculateSubframeOffsets_spec (resolveMotionBlurConfig none) ⟨none, rfl⟩ (1/24)).1⟩

lemma round_mono_rat {x y : ℚ} (h : x ≤ y) : round x ≤ round y := by
  rw [round_eq, round_eq]
  exact Int.floor_le_floor (by linarith)

lemma resolve_optsAdaptive_adaptiveSampling :
    (resolveMotionBlurConfig (some optsAdaptive)).adaptiveSampling = true := by
  simp [resolveMotionBlurConfig, optsAdaptive, DEFAULT_MOTION_BLUR_CONFIG]

lemma resolve_optsAdaptive_minSamples :
    (resolveMotionBlurConfig (some optsAdaptive)).adaptiveMinSamples = 2 := by
  simp [resolveMotionBlurConfig, optsAdaptive, DEFAULT_MOTION_BLUR_CONFIG]

lemma resolve_optsAdaptive_samples :
    (resolveMotionBlurConfig (some optsAdaptive)).samples = 8 := by
  simp [resolveMotionBlurConfig, optsAdaptive, DEFAULT_MOTION_BLUR_CONFIG, clampSamples]

/-- Claim C7, counterexample: at the resolved config of `{samples: 4,
adaptiveSampling: true, adaptiveMinSamples: 32}` (minimum above the sample count)
and velocity = threshold = 50, the function returns `max(32, round(4)) = 32`, not
`samples = 4` as the claim demands for velocities at or above the threshold. -/
theorem calculateAdaptiveSamples_exceeds_samples :
    (resolveMotionBlurConfig (some optsAdaptiveInverted)).samples = 4 ∧
      calculateAdaptiveSamples (resolveMotionBlurConfig (some optsAdaptiveInverted)) 50 50 =
        32 := by
  have hs : (resolveMotionBlurConfig (some optsAdaptiveInverted)).samples = 4 := by
    simp [resolveMotionBlurConfig, optsAdaptiveInverted, DEFAULT_MOTION_BLUR_CONFIG,
      clampSamples, truthy]
  have hm :
      (resolveMotionBlurConfig (some optsAdaptiveInverted)).adaptiveMinSamples = 32 := by
    simp [resolveMotionBlurConfig, optsAdaptiveInverted, DEFAULT_MOTION_BLUR_CONFIG]
  have ha :
      (resolveMotionBlurConfig (some optsAdaptiveInverted)).adaptiveSampling = true := by
    simp [resolveMotionBlurConfig, optsAdaptiveInverted, DEFAULT_MOTION_BLUR_CONFIG]
  refine ⟨hs, ?_⟩
  rw [calculateAdaptiveSamples, ha, hs, hm]
  norm_num [round_eq]

/-- Claim C7 (amended): with adaptive sampling off the sample count is returned
unchanged at every velocity; with it on — provided the resolved
`adaptiveMinSamples` is an integer and does not exceed `samples` (the code takes
`max(adaptiveMinSamples, round(...))`, so a minimum above `samples` wins at every
velocity, and a fractional minimum is not reproduced exactly at velocity 0) — the
result at velocity 0 is exactly `adaptiveMinSamples`, at any velocity at or above
the (positive) threshold exactly `samples`, and it is monotonically non-decreasing
in the velocity. -/
theorem calculateAdaptiveSamples_spec (c : MotionBlurConfig) (h : Resolved c)
    (hms : c.adaptiveMinSamples ≤ c.samples)
    (hint : ∃ k : ℤ, c.adaptiveMinSamples = (k : ℚ))
    (threshold : ℚ) (ht : 0 < threshold) :
    (c.adaptiveSampling = false →
      ∀ velocity : ℚ, calculateAdaptiveSamples c velocity threshold = c.samples) ∧
    (c.adaptiveSampling = true →
      calculateAdaptiveSamples c 0 threshold = c.adaptiveMinSamples ∧
      (∀ velocity : ℚ, threshold ≤ velocity →
        calculateAdaptiveSamples c velocity threshold = c.samples) ∧
      (∀ v1 v2 : ℚ, v1 ≤ v2 →
        calculateAdaptiveSamples c v1 threshold ≤ calculateAdaptiveSamples c v2 threshold)) := by
  constructor
  · intro hA velocity
    simp [calculateAdaptiveSamples, hA]
  · intro hA
    obtain ⟨k, hk⟩ := hint
    obtain ⟨n, hn, -, -⟩ := h.samples_nat
    refine ⟨?_, ?_, ?_⟩
    · rw [calculateAdaptiveSamples, hA]
      simp only [Bool.not_true, Bool.false_eq_true, if_false]
      rw [zero_div, min_eq_right (by norm_num : (0:ℚ) ≤ 1), mul_zero, add_zero, hk,
        round_intCast, max_self]
    · intro velocity hv
      have hdiv : (1 : ℚ) ≤ velocity / threshold := (one_le_div ht).mpr hv
      rw [calculateAdaptiveSamples, hA]
      simp only [Bool.not_true, Bool.false_eq_true, if_false]
      rw [min_eq_left hdiv, mul_one, add_sub_cancel, hn, round_natCast]
      push_cast
      rw [← hn, max_eq_right hms]
    · intro v1 v2 h12
      rw [calculateAdaptiveSamples, calculateAdaptiveSamples, hA]
      simp only [Bool.not_true, Bool.false_eq_true, if_false]
      apply max_le_max le_rfl
      have hsm : (0 : ℚ) ≤ c.samples - c.adaptiveMinSamples := sub_nonneg.mpr hms
      have hdiv : v1 / threshold ≤ v2 / threshold := (div_le_div_iff_of_pos_right ht).mpr h12
      have hmin : min 1 (v1 / threshold) ≤ min 1 (v2 / threshold) :=
        min_le_min le_rfl hdiv
      have harg :
          c.adaptiveMinSamples + (c.samples - c.adaptiveMinSamples) * min 1 (v1 / threshold) ≤
            c.adaptiveMinSamples +
              (c.samples - c.adaptiveMinSamples) * min 1 (v2 / threshold) :=
        add_le_add_left (mul_le_mul_of_nonneg_left hmin hsm) _
      exact_mod_cast round_mono_rat harg

/-- Witness for C7's amended theorem at the resolved `{adaptiveSampling: true}`
config (samples 8, minimum 2) and the default threshold 50: velocity 0 yields the
minimum. -/
theorem calculateAdaptiveSamples_spec_witness :
    calculateAdaptiveSamples (resolveMotionBlurConfig (some optsAdaptive)) 0 50 =
      (resolveMotionBlurConfig (some optsAdaptive)).adaptiveMinSamples :=
  ((calculateAdaptiveSamples_spec (resolveMotionBlurConfig (some optsAdaptive))
      ⟨some optsAdaptive, rfl⟩
      (by rw [resolve_optsAdaptive_minSamples, resolve_optsAdaptive_samples]; norm_num)
      ⟨2, by rw [resolve_optsAdaptive_minSamples]; norm_num⟩
      50 (by norm_num)).2 resolve_optsAdaptive_adaptiveSampling).1

lemma foldl_add_eq_sum (l : List ℝ) : ∀ a : ℝ, l.foldl (· + ·) a = a + l.sum := by
  induction l with
  | nil => intro a; simp
  | cons x xs ih =>
    intro a
    rw [List.foldl_cons, ih, List.sum_cons]
    ring

lemma sum_map_div (l : List ℝ) (S : ℝ) : (l.map fun w => w / S).sum = l.sum / S := by
  induction l with
  | nil => simp
  | cons x xs ih =>
    rw [List.map_cons, List.sum_cons, List.sum_cons, ih]
    ring

/-- Normalizing a nonempty list of positive reals by its running sum yields
non-negative entries summing to one. -/
lemma normalized_spec (l : List ℝ) (hpos : ∀ x ∈ l, 0 < x) (hne : l ≠ []) :
    0 < l.foldl (· + ·) 0 ∧
    (∀ x ∈ l.map fun w => w / l.foldl (· + ·) 0, 0 ≤ x) ∧
    (l.map fun w => w / l.foldl (· + ·) 0).sum = 1 := by
  have hfold : l.foldl (· + ·) 0 = l.sum := by
    rw [foldl_add_eq_sum, zero_add]
  have hS : 0 < l.sum := List.sum_pos l hpos hne
  refine ⟨hfold ▸ hS, ?_, ?_⟩
  · intro x hx
    obtain ⟨w, hw, rfl⟩ := List.mem_map.mp hx
    rw [hfold]
    exact div_nonneg (hpos w hw).le hS.le
  · rw [hfold, sum_map_div, div_self hS.ne']

lemma norm_range_get (n : ℕ) (f : ℕ → ℝ) (S : ℝ) (i : ℕ)
    (hi : i < (((List.range n).map f).map fun w => w / S).length) :
    (((List.range n).map f).map fun w => w / S).get ⟨i, hi⟩ = f i / S := by
  rw [List.get_eq_getElem]
  simp only [List.getElem_map, List.getElem_range]

/-- A one-entry raw weight list normalizes to exactly `[1]`. -/
lemma norm_range_one (f : ℕ → ℝ) (hf : f 0 ≠ 0) :
    ((List.range 1).map f).map
      (fun w => w / ((List.range 1).map f).foldl (· + ·) 0) = [1] := by
  have h1 : List.range 1 = [0] := by decide
  simp [h1]
  exact div_self hf

lemma calculateBoxWeights_natCast (n : ℕ) :
    calculateBoxWeights (n : ℚ) = List.replicate n 1 := by
  unfold calculateBoxWeights
  rw [loopCount_natCast]

lemma calculateTriangleWeights_natCast (n : ℕ) :
    calculateTriangleWeights (n : ℚ) =
      (List.range n).map fun (i : ℕ) =>
        1 - |(i : ℝ) - ((n : ℝ) - 1) / 2| / ((n : ℝ) / 2) := by
  unfold calculateTriangleWeights
  rw [loopCount_natCast]
  simp only [Rat.cast_natCast]

lemma calculateGaussianWeights_natCast (n : ℕ) :
    calculateGaussianWeights (n : ℚ) =
      (List.range n).map fun (i : ℕ) =>
        Real.exp (-(((i : ℝ) - ((n : ℝ) - 1) / 2) * ((i : ℝ) - ((n : ℝ) - 1) / 2)) /
          (2 * (((n : ℝ) / 4) * ((n : ℝ) / 4)))) := by
  unfold calculateGaussianWeights
  rw [loopCount_natCast]
  simp only [Rat.cast_natCast]

/-- Every raw triangle weight at an index inside the range is strictly positive:
`|i − (n−1)/2| ≤ (n−1)/2 < n/2`. -/
lemma triangle_raw_pos (n : ℕ) (hn : 1 ≤ n) (i : ℕ) (hi : i < n) :
    0 < 1 - |(i : ℝ) - ((n : ℝ) - 1) / 2| / ((n : ℝ) / 2) := by
  have hn1 : (1 : ℝ) ≤ (n : ℝ) := by exact_mod_cast hn
  have hhalf : (0 : ℝ) < (n : ℝ) / 2 := by linarith
  have hi1 : (i : ℝ) + 1 ≤ (n : ℝ) := by exact_mod_cast Nat.succ_le_of_lt hi
  have hub : |(i : ℝ) - ((n : ℝ) - 1) / 2| ≤ ((n : ℝ) - 1) / 2 := by
    rw [abs_le]
    have hi0 : (0 : ℝ) ≤ (i : ℝ) := Nat.cast_nonneg i
    constructor <;> linarith
  have hlt : |(i : ℝ) - ((n : ℝ) - 1) / 2| < (n : ℝ) / 2 := lt_of_le_of_lt hub (by linarith)
  have := (div_lt_one hhalf).mpr hlt
  linarith

/-- The raw triangle weight is antitone in the distance from the center. -/
lemma triangle_raw_anti (n : ℕ) (hn : 1 ≤ n) (i j : ℕ)
    (hd : |(i : ℝ) - ((n : ℝ) - 1) / 2| ≤ |(j : ℝ) - ((n : ℝ) - 1) / 2|) :
    1 - |(j : ℝ) - ((n : ℝ) - 1) / 2| / ((n : ℝ) / 2) ≤
      1 - |(i : ℝ) - ((n : ℝ) - 1) / 2| / ((n : ℝ) / 2) := by
  have hn1 : (1 : ℝ) ≤ (n : ℝ) := by exact_mod_cast hn
  have hhalf : (0 : ℝ) < (n : ℝ) / 2 := by linarith
  exact sub_le_sub_left ((div_le_div_iff_of_pos_right hhalf).mpr hd) 1

/-- The raw gaussian weight is antitone in the distance from the center. -/
lemma gaussian_raw_anti (n : ℕ) (hn : 1 ≤ n) (i j : ℕ)
    (hd : |(i : ℝ) - ((n : ℝ) - 1) / 2| ≤ |(j : ℝ) - ((n : ℝ) - 1) / 2|) :
    Real.exp (-(((j : ℝ) - ((n : ℝ) - 1) / 2) * ((j : ℝ) - ((n : ℝ) - 1) / 2)) /
        (2 * (((n : ℝ) / 4) * ((n : ℝ) / 4)))) ≤
      Real.exp (-(((i : ℝ) - ((n : ℝ) - 1) / 2) * ((i : ℝ) - ((n : ℝ) - 1) / 2)) /
        (2 * (((n : ℝ) / 4) * ((n : ℝ) / 4)))) := by
  have hn0 : (0 : ℝ) < (n : ℝ) := by exact_mod_cast Nat.lt_of_lt_of_le Nat.zero_lt_one hn
  have hC : (0 : ℝ) < 2 * (((n : ℝ) / 4) * ((n : ℝ) / 4)) := by positivity
  apply Real.exp_le_exp.mpr
  rw [neg_div, neg_div, neg_le_neg_iff]
  apply (div_le_div_iff_of_pos_right hC).mpr
  calc ((i : ℝ) - ((n : ℝ) - 1) / 2) * ((i : ℝ) - ((n : ℝ) - 1) / 2) =
      |(i : ℝ) - ((n : ℝ) - 1) / 2| * |(i : ℝ) - ((n : ℝ) - 1) / 2| :=
        (abs_mul_abs_self _).symm
    _ ≤ |(j : ℝ) - ((n : ℝ) - 1) / 2| * |(j : ℝ) - ((n : ℝ) - 1) / 2| :=
        mul_self_le_mul_self (abs_nonneg _) hd
    _ = ((j : ℝ) - ((n : ℝ) - 1) / 2) * ((j : ℝ) - ((n : ℝ) - 1) / 2) :=
        abs_mul_abs_self _

/-- Common facts about a normalized `range`-mapped raw weight list: the count is
`samples`, every weight is non-negative, the weights sum to 1, the k-th weight is
`f k / sum`, and the raw sum is positive. -/
lemma range_curve_spec (c : MotionBlurConfig) (n : ℕ) (hn1 : 1 ≤ n)
    (hn : c.samples = (n : ℚ)) (f : ℕ → ℝ)
    (hW : calculateSubframeWeights c = ((List.range n).map f).map
      (fun w => w / ((List.range n).map f).foldl (· + ·) 0))
    (hpos : ∀ i, i < n → 0 < f i) :
    ((calculateSubframeWeights c).length : ℚ) = c.samples ∧
    (∀ w ∈ calculateSubframeWeights c, 0 ≤ w) ∧
    (calculateSubframeWeights c).sum = 1 ∧
    (∀ k : ℕ, ∀ hk : k < (calculateSubframeWeights c).length,
      (calculateSubframeWeights c).get ⟨k, hk⟩ =
        f k / ((List.range n).map f).foldl (· + ·) 0) ∧
    0 < ((List.range n).map f).foldl (· + ·) 0 := by
  have hpos' : ∀ x ∈ (List.range n).map f, 0 < x := by
    intro x hx
    obtain ⟨i, hi, rfl⟩ := List.mem_map.mp hx
    exact hpos i (List.mem_range.mp hi)
  have hne : (List.range n).map f ≠ [] := by
    apply List.ne_nil_of_length_pos
    simpa using hn1
  obtain ⟨hS, hnn, hsum⟩ := normalized_spec _ hpos' hne
  refine ⟨?_, ?_, ?_, ?_, hS⟩
  · rw [hW]
    simp only [List.length_map, List.length_range]
    exact hn.symm
  · rw [hW]
    exact hnn
  · rw [hW]
    exact hsum
  · intro k hk
    rw [List.get_of_eq hW]
    exact norm_range_get n f _ k _

/-- Claim C6: for a resolved config, `calculateSubframeWeights` returns exactly
`samples` non-negative weights summing to exactly 1 (this holds for each curve,
the curve being an arbitrary field of the resolved config); for the box curve
every weight is `1/samples`; a single sample always yields `[1]`; and for an odd
sample count `2m+1` the triangle and gaussian weights are antitone in the
distance from the middle index `m` — in particular they peak at `m` (take `i = m`)
and are monotonically non-increasing toward both edges. -/
theorem calculateSubframeWeights_spec (c : MotionBlurConfig) (h : Resolved c) :
    ((calculateSubframeWeights c).length : ℚ) = c.samples ∧
    (∀ w ∈ calculateSubframeWeights c, 0 ≤ w) ∧
    (calculateSubframeWeights c).sum = 1 ∧
    (c.shutterCurve = ShutterCurve.box →
      ∀ w ∈ calculateSubframeWeights c, w = 1 / (c.samples : ℝ)) ∧
    (c.samples = 1 → calculateSubframeWeights c = [1]) ∧
    ((c.shutterCurve = ShutterCurve.triangle ∨ c.shutterCurve = ShutterCurve.gaussian) →
      ∀ m : ℕ, c.samples = ((2 * m + 1 : ℕ) : ℚ) →
      ∀ i j : ℕ, ∀ hi : i < (calculateSubframeWeights c).length,
        ∀ hj : j < (calculateSubframeWeights c).length,
        |(i : ℝ) - (m : ℝ)| ≤ |(j : ℝ) - (m : ℝ)| →
        (calculateSubframeWeights c).get ⟨j, hj⟩ ≤
          (calculateSubframeWeights c).get ⟨i, hi⟩) := by
  obtain ⟨n, hn, hn1, -⟩ := h.samples_nat
  rcases hc : c.shutterCurve with _ | _ | _
  · -- box
    have hW : calculateSubframeWeights c = (List.replicate n (1 : ℝ)).map
        (fun w => w / ((List.replicate n (1 : ℝ)).foldl (· + ·) 0)) := by
      simp only [calculateSubframeWeights, hc]
      rw [hn, calculateBoxWeights_natCast]
    have hpos' : ∀ x ∈ List.replicate n (1 : ℝ), 0 < x := by
      intro x hx
      rw [List.eq_of_mem_replicate hx]
      norm_num
    have hne : List.replicate n (1 : ℝ) ≠ [] := by
      apply List.ne_nil_of_length_pos
      simpa using hn1
    obtain ⟨hS, hnn, hsum⟩ := normalized_spec _ hpos' hne
    have hfold : (List.replicate n (1 : ℝ)).foldl (· + ·) 0 = (n : ℝ) := by
      rw [foldl_add_eq_sum, zero_add, List.sum_replicate, nsmul_eq_mul, mul_one]
    refine ⟨?_, ?_, ?_, ?_, ?_, ?_⟩
    · rw [hW]
      simp only [List.length_map, List.length_replicate]
      exact hn.symm
    · rw [hW]
      exact hnn
    · rw [hW]
      exact hsum
    · intro hbox w hw
      rw [hW] at hw
      obtain ⟨x, hx, rfl⟩ := List.mem_map.mp hw
      rw [List.eq_of_mem_replicate hx, hfold]
      have hcs : (c.samples : ℝ) = (n : ℝ) := by
        rw [hn]
        push_cast
        rfl
      rw [hcs]
    · intro h1
      have hone : n = 1 := by
        rw [h1] at hn
        exact_mod_cast hn.symm
      subst hone
      rw [hW]
      simp [List.replicate_one]
    · intro hcurve
      rcases hcurve with h' | h' <;> simp at h'
  · -- triangle
    have hW : calculateSubframeWeights c =
        ((List.range n).map fun (i : ℕ) =>
          1 - |(i : ℝ) - ((n : ℝ) - 1) / 2| / ((n : ℝ) / 2)).map
          (fun w => w / (((List.range n).map fun (i : ℕ) =>
            1 - |(i : ℝ) - ((n : ℝ) - 1) / 2| / ((n : ℝ) / 2)).foldl (· + ·) 0)) := by
      simp only [calculateSubframeWeights, hc]
      rw [hn, calculateTriangleWeights_natCast]
    have hpos : ∀ i, i < n →
        0 < 1 - |(i : ℝ) - ((n : ℝ) - 1) / 2| / ((n : ℝ) / 2) :=
      fun i hi => triangle_raw_pos n hn1 i hi
    obtain ⟨hA, hB, hC, hget, hS⟩ := range_curve_spec c n hn1 hn _ hW hpos
    refine ⟨hA, hB, hC, ?_, ?_, ?_⟩
    · intro hbox
      simp at hbox
    · intro h1
      have hone : n = 1 := by
        rw [h1] at hn
        exact_mod_cast hn.symm
      subst hone
      rw [hW]
      exact norm_range_one _ (ne_of_gt (hpos 0 (by norm_num)))
    · intro hcurve m hm i j hi hj hd
      have hnm : n = 2 * m + 1 := by
        rw [hn] at hm
        exact_mod_cast hm
      have hcenter : ((n : ℝ) - 1) / 2 = (m : ℝ) := by
        rw [hnm]
        push_cast
        ring
      have hd' : |(i : ℝ) - ((n : ℝ) - 1) / 2| ≤ |(j : ℝ) - ((n : ℝ) - 1) / 2| := by
        rw [hcenter]
        exact hd
      rw [hget j hj, hget i hi]
      exact (div_le_div_iff_of_pos_right hS).mpr (triangle_raw_anti n hn1 i j hd')
  · -- gaussian
    have hW : calculateSubframeWeights c =
        ((List.range n).map fun (i : ℕ) =>
          Real.exp (-(((i : ℝ) - ((n : ℝ) - 1) / 2) * ((i : ℝ) - ((n : ℝ) - 1) / 2)) /
            (2 * (((n : ℝ) / 4) * ((n : ℝ) / 4))))).map
          (fun w => w / (((List.range n).map fun (i : ℕ) =>
            Real.exp (-(((i : ℝ) - ((n : ℝ) - 1) / 2) * ((i : ℝ) - ((n : ℝ) - 1) / 2)) /
              (2 * (((n : ℝ) / 4) * ((n : ℝ) / 4))))).foldl (· + ·) 0)) := by
      simp only [calculateSubframeWeights, hc]
      rw [hn, calculateGaussianWeights_natCast]
    have hpos : ∀ i, i < n →
        0 < Real.exp (-(((i : ℝ) - ((n : ℝ) - 1) / 2) * ((i : ℝ) - ((n : ℝ) - 1) / 2)) /
          (2 * (((n : ℝ) / 4) * ((n : ℝ) / 4)))) :=
      fun i _ => Real.exp_pos _
    obtain ⟨hA, hB, hC, hget, hS⟩ := range_curve_spec c n hn1 hn _ hW hpos
    refine ⟨hA, hB, hC, ?_, ?_, ?_⟩
    · intro hbox
      simp at hbox
    · intro h1
      have hone : n = 1 := by
        rw [h1] at hn
        exact_mod_cast hn.symm
      subst hone
      rw [hW]
      exact norm_range_one _ (ne_of_gt (hpos 0 (by norm_num)))
    · intro hcurve m hm i j hi hj hd
      have hnm : n = 2 * m + 1 := by
        rw [hn] at hm
        exact_mod_cast hm
      have hcenter : ((n : ℝ) - 1) / 2 = (m : ℝ) := by
        rw [hnm]
        push_cast
        ring
      have hd' : |(i : ℝ) - ((n : ℝ) - 1) / 2| ≤ |(j : ℝ) - ((n : ℝ) - 1) / 2| := by
        rw [hcenter]
        exact hd
      rw [hget j hj, hget i hi]
      exact (div_le_div_iff_of_pos_right hS).mpr (gaussian_raw_anti n hn1 i j hd')

/-- Witness for C6 at the default configuration (8 box samples): the weights sum
to exactly 1. -/
theorem calculateSubframeWeights_spec_witness :
    (calculateSubframeWeights (resolveMotionBlurConfig none)).sum = 1 :=
  (calculateSubframeWeights_spec (resolveMotionBlurConfig none) ⟨none, rfl⟩).2.2.1

lemma range_map_getD (n : ℕ) (g : ℕ → ℕ) (i : ℕ) (hi : i < n) :
    ((List.range n).map g).getD i 0 = g i := by
  rw [List.getD_eq_getElem?_getD]
  simp [List.getElem?_map, List.getElem?_range, hi]

lemma round_clamp_nonneg (v : ℚ) : 0 ≤ round (min 255 (max 0 v)) := by
  have h : (0 : ℚ) ≤ min 255 (max 0 v) := le_min (by norm_num) (le_max_left _ _)
  have h2 := round_mono_rat h
  simpa using h2

lemma round_clamp_le (v : ℚ) : round (min 255 (max 0 v)) ≤ 255 := by
  have h : min 255 (max 0 v) ≤ (255 : ℚ) := min_le_left _ _
  have h2 := round_mono_rat h
  have h255 : round (255 : ℚ) = 255 := by
    norm_num [round_eq]
  omega

lemma clampRoundChannel_cast (v : ℚ) :
    ((clampRoundChannel v : ℕ) : ℤ) = round (min 255 (max 0 v)) := by
  unfold clampRoundChannel
  exact Int.toNat_of_nonneg (round_clamp_nonneg v)

lemma clampRoundChannel_le (v : ℚ) : clampRoundChannel v ≤ 255 := by
  unfold clampRoundChannel
  have h1 := round_clamp_le v
  omega

/-- Claim C9: `finalizeMotionBlur` leaves the stage untouched when no accumulation
buffer exists or the sample counter is 0; otherwise it replaces the visible
target with one channel value per canvas slot, each equal to the accumulated
value clamped to [0, 255] and rounded to the nearest integer (and hence at most
255). -/
theorem finalizeMotionBlur_spec (st : Stage) :
    ((st.accumulationBuffer = none ∨ st.accumulationSamples = 0) →
      finalizeMotionBlur st = st) ∧
    (∀ buf : List ℚ, st.accumulationBuffer = some buf → st.accumulationSamples ≠ 0 →
      (finalizeMotionBlur st).finalPixels.length = canvasPixelCount st ∧
      (∀ i : ℕ, i < canvasPixelCount st →
        (((finalizeMotionBlur st).finalPixels.getD i 0 : ℕ) : ℤ) =
          round (min 255 (max 0 (buf.getD i 0))) ∧
        (finalizeMotionBlur st).finalPixels.getD i 0 ≤ 255)) := by
  constructor
  · intro hg
    unfold finalizeMotionBlur
    rcases hg with hg | hg
    · rw [hg]
    · cases hb : st.accumulationBuffer with
      | none => rfl
      | some buf => simp [hg]
  · intro buf hb hs
    have hfin : (finalizeMotionBlur st).finalPixels =
        (List.range (canvasPixelCount st)).map fun i => clampRoundChannel (buf.getD i 0) := by
      unfold finalizeMotionBlur
      rw [hb]
      simp [hs]
    refine ⟨?_, ?_⟩
    · rw [hfin]
      simp
    · intro i hi
      rw [hfin, range_map_getD _ _ i hi]
      exact ⟨clampRoundChannel_cast _, clampRoundChannel_le _⟩

/-- Witness for C9 at a 1×1 stage mid-accumulation: the finalized target has one
value per canvas channel slot. -/
theorem finalizeMotionBlur_spec_witness :
    (finalizeMotionBlur stageAccumulating).finalPixels.length =
      canvasPixelCount stageAccumulating :=
  ((finalizeMotionBlur_spec stageAccumulating).2 [300, -5, 1/2, 7] rfl
    (by decide)).1

lemma render_loop (renderCallback : ℚ → Stage → Stage) (l : List (ℚ × ℚ)) :
    ∀ (s : Stage) (evs : List MBEvent),
      l.foldl
        (fun (acc : Stage × List MBEvent) ow =>
          (accumulateMotionBlurSample ow.2 (renderCallback ow.1 acc.1),
            acc.2 ++ [MBEvent.renderSubframe ow.1, MBEvent.accumulateSample ow.2]))
        (s, evs) =
      (l.foldl (fun s ow => accumulateMotionBlurSample ow.2 (renderCallback ow.1 s)) s,
        evs ++ l.flatMap fun ow =>
          [MBEvent.renderSubframe ow.1, MBEvent.accumulateSample ow.2]) := by
  induction l with
  | nil =>
    intro s evs
    simp
  | cons hd tl ih =>
    intro s evs
    rw [List.foldl_cons, List.foldl_cons, ih]
    simp

/-- Claim C8: with an empty offsets list or mismatched lengths,
`renderWithMotionBlur` returns the stage unchanged and performs no call at all
(empty event trace, for every callback); otherwise the trace is exactly one
`begin`, then for each index in order a callback invocation with the i-th offset
followed by one accumulate with the i-th weight, then exactly one `finalize`, and
the resulting stage is the corresponding composition of the stage operations. -/
theorem renderWithMotionBlur_spec (renderCallback : ℚ → Stage → Stage)
    (subframeOffsets weights : List ℚ) (st : Stage) :
    ((subframeOffsets = [] ∨ subframeOffsets.length ≠ weights.length) →
      renderWithMotionBlur renderCallback subframeOffsets weights st = (st, [])) ∧
    (subframeOffsets ≠ [] → subframeOffsets.length = weights.length →
      (renderWithMotionBlur renderCallback subframeOffsets weights st).2 =
        MBEvent.beginAccumulation ::
          ((subframeOffsets.zip weights).flatMap fun ow =>
            [MBEvent.renderSubframe ow.1, MBEvent.accumulateSample ow.2]) ++
          [MBEvent.finalizeAccumulation] ∧
      (renderWithMotionBlur renderCallback subframeOffsets weights st).1 =
        finalizeMotionBlur
          ((subframeOffsets.zip weights).foldl
            (fun s ow => accumulateMotionBlurSample ow.2 (renderCallback ow.1 s))
            (beginMotionBlurAccumulation st))) := by
  constructor
  · intro hg
    unfold renderWithMotionBlur
    rw [if_pos]
    rcases hg with hg | hg
    · left
      rw [hg]
      rfl
    · right
      exact hg
  · intro hne hlen
    have hcond : ¬(subframeOffsets.length = 0 ∨ subframeOffsets.length ≠ weights.length) := by
      push_neg
      exact ⟨fun h0 => hne (List.length_eq_zero.mp h0), hlen⟩
    unfold renderWithMotionBlur
    rw [if_neg hcond, render_loop]
    constructor
    · simp
    · rfl

/-- Witness for C8: an empty plan on the idle stage is a strict no-op. -/
theorem renderWithMotionBlur_spec_witness :
    renderWithMotionBlur (fun _ s => s) [] [] stageIdle = (stageIdle, []) :=
  (renderWithMotionBlur_spec (fun _ s => s) [] [] stageIdle).1 (Or.inl rfl)

/-- Claim C10: `configure` with size and resolution scale (after defaulting)
equal to the current values leaves the accumulation buffer and its sample counter
untouched, whatever it does to color space, background or motion-blur config;
when either differs, the accumulation buffer is discarded (set to `none`). -/
theorem configure_accumulation_spec (st : Stage) (settings : StageSettings) :
    ((settings.size.getD st.size = st.size ∧
        settings.resolutionScale.getD st.resolutionScale = st.resolutionScale) →
      (configure settings st).accumulationBuffer = st.accumulationBuffer ∧
      (configure settings st).accumulationSamples = st.accumulationSamples) ∧
    (¬(settings.size.getD st.size = st.size ∧
        settings.resolutionScale.getD st.resolutionScale = st.resolutionScale) →
      (configure settings st).accumulationBuffer = none) := by
  constructor
  · rintro ⟨h1, h2⟩
    cases hmb : settings.motionBlur <;>
      simp [configure, h1, h2, hmb]
  · intro hneg
    have hcond : settings.size.getD st.size ≠ st.size ∨
        settings.resolutionScale.getD st.resolutionScale ≠ st.resolutionScale := by
      by_contra hcon
      push_neg at hcon
      exact hneg ⟨hcon.1, hcon.2⟩
    cases hmb : settings.motionBlur <;>
      · simp only [configure, hmb]
        rw [if_pos hcond]

/-- Witness for C10: settings that change color space, background and motion-blur
config but not size or scale leave the mid-accumulation state intact. -/
theorem configure_accumulation_spec_witness :
    (configure settingsNoResize stageAccumulating).accumulationBuffer =
      stageAccumulating.accumulationBuffer ∧
    (configure settingsNoResize stageAccumulating).accumulationSamples =
      stageAccumulating.accumulationSamples :=
  (configure_accumulation_spec stageAccumulating settingsNoResize).1 ⟨rfl, rfl⟩

end Revideo
